import Mathlib

/-!
The `lxor` Lua extension module (`lxor.c`)

A shallow embedding of `src/content/posts/wireshark-lua-c/lxor/lxor.c`:
the repeating-key transform `xor`, the userdata block `cipher_userdata_t`
and the three C functions registered with the host runtime, `cipher_new`,
`cipher_encrypt` / `cipher_decrypt` and `cipher_destroy`.

Modelling conventions.

* A `uint8_t` is a `Fin 256`; `^^^` on `Fin 256` is bitwise exclusive or
  reduced modulo 256.
* A pointer to a byte buffer is an `Option (List uint8_t)`; `none` is `NULL`.
* Host memory is explicit: `lua_State` holds the full userdata blocks (a
  handle is the index of its block) and the log of the buffers handed to
  `free`, each with the contents it had at that moment.
* A C function of the binding takes the state and the arguments of the call
  (argument `n` of the Lua stack is `args[n - 1]`) and yields a `Result`:
  a normal return with the values left for the caller, an error raised in the
  host (`luaL_error`, or the argument errors of `luaL_check*`), or undefined
  behaviour of the C program.
* `malloc` is taken to succeed and to return a valid buffer, as the source
  assumes throughout (it never tests the pointer it gets back).
-/

namespace LXor

/-- One byte, the C type `uint8_t`. -/
abbrev uint8_t := Fin 256

/-- Ways in which the C code leaves defined behaviour. -/
inductive Undefined
  /-- The operation `i % key_length` evaluated with `key_length == 0`. -/
  | division_by_zero
  /-- A read through `NULL` or beyond the end of a buffer. -/
  | invalid_read
  /-- A write beyond the end of a buffer. -/
  | invalid_write
  deriving DecidableEq, Repr

/-- Errors raised in the host runtime; each aborts the running call. -/
inductive LuaError
  /-- The argument error of `luaL_checklstring` / `luaL_checkudata`:
  argument `arg` is not of the kind named `tname`. -/
  | typeerror (arg : Nat) (tname : String)
  /-- The call `luaL_error(L, msg)`. -/
  | error (msg : String)
  deriving DecidableEq, Repr

/-- The userdata struct that holds the state of a cipher, i.e. the key. -/
structure cipher_userdata_t where
  /-- Field `uint8_t *key`; `none` is `NULL`. -/
  key : Option (List uint8_t)
  /-- Field `size_t key_length`. -/
  key_length : Nat
  deriving DecidableEq, Repr

/-- A full userdata block of the host: the registry name of its metatable,
if it has one, and its payload. -/
structure Userdata where
  metatable : Option String
  block : cipher_userdata_t
  deriving DecidableEq, Repr

/-- Values of the host language as the binding sees them. A number carries
the bytes of its string conversion (`lua_tolstring` accepts numbers). -/
inductive LuaValue
  | nil
  | boolean (b : Bool)
  | number (text : List uint8_t)
  | string (s : List uint8_t)
  | table
  | func
  | userdata (addr : Nat)
  deriving DecidableEq, Repr

/-- Host memory: the userdata blocks, addressed by index, and the buffers
passed to `free` so far, each with the contents it had when released. -/
structure lua_State where
  udata : List Userdata
  freed : List (List uint8_t)
  deriving DecidableEq, Repr

/-- Outcome of a call of one of the registered C functions. -/
inductive Result
  /-- Normal return: the values left on the stack for the caller. -/
  | ok (values : List LuaValue) (L : lua_State)
  /-- The call was aborted by an error raised in the host. -/
  | raised (e : LuaError) (L : lua_State)
  /-- The C code ran into undefined behaviour. -/
  | undefined (u : Undefined)
  deriving DecidableEq, Repr

/-- The call `malloc(n)`: a fresh buffer of `n` bytes. -/
def malloc (n : Nat) : List uint8_t :=
  List.replicate n 0

/-- The call `memcpy(dest, src, n)`, for `n` within both buffers. -/
def memcpy (dest src : List uint8_t) (n : Nat) : List uint8_t :=
  src.take n ++ dest.drop n

/-- The call `memset(s, c, n)`, for `n` within the buffer. -/
def memset (s : List uint8_t) (c : uint8_t) (n : Nat) : List uint8_t :=
  List.replicate n c ++ s.drop n

/-- The loop of `xor`, from index `i` on, over the input bytes still to be
read: `buffer[i] = in[i] ^ key[i % key_length]`. -/
def xor_loop (key : Option (List uint8_t)) (key_length : Nat) :
    Nat → List uint8_t → Except Undefined (List uint8_t)
  | _, [] => Except.ok []
  | i, b :: rest =>
    if key_length = 0 then Except.error Undefined.division_by_zero
    else
      match key with
      | none => Except.error Undefined.invalid_read
      | some kbuf =>
        match kbuf[i % key_length]? with
        | none => Except.error Undefined.invalid_read
        | some kb =>
          match xor_loop key key_length (i + 1) rest with
          | Except.ok out => Except.ok ((b ^^^ kb) :: out)
          | Except.error e => Except.error e

/-- The "crypto" function that is being wrapped. The input buffer and
`in_length` are the list `input` and its length; the result is the pair
of `*out` and `*out_length`. -/
def xor (key : Option (List uint8_t)) (key_length : Nat) (input : List uint8_t) :
    Except Undefined (List uint8_t × Nat) :=
  let out_length := input.length
  match xor_loop key key_length 0 input with
  | Except.ok buffer => Except.ok (buffer, out_length)
  | Except.error e => Except.error e

/-- The auxiliary-library call `luaL_checklstring(L, arg, &len)`: the
argument must be a string or a number; the pointer returned is never
`NULL`, and `len` is the length of the list. -/
def luaL_checklstring (args : List LuaValue) (arg : Nat) :
    Except LuaError (Option (List uint8_t)) :=
  match args[arg - 1]? with
  | some (LuaValue.string s) => Except.ok (some s)
  | some (LuaValue.number text) => Except.ok (some text)
  | _ => Except.error (LuaError.typeerror arg "string")

/-- The auxiliary-library call `luaL_checkudata(L, arg, tname)`: the
argument must be a userdata whose metatable is the one registered as
`tname`; yields the address of the block and its contents. -/
def luaL_checkudata (L : lua_State) (args : List LuaValue) (arg : Nat) (tname : String) :
    Except LuaError (Nat × cipher_userdata_t) :=
  match args[arg - 1]? with
  | some (LuaValue.userdata addr) =>
    match L.udata[addr]? with
    | some ud =>
      if ud.metatable = some tname then Except.ok (addr, ud.block)
      else Except.error (LuaError.typeerror arg tname)
    | none => Except.error (LuaError.typeerror arg tname)
  | _ => Except.error (LuaError.typeerror arg tname)

/-- A store through the pointer `u` to the block at `addr`. -/
def lua_State.store (L : lua_State) (addr : Nat) (u : cipher_userdata_t) : lua_State :=
  match L.udata[addr]? with
  | some ud => { L with udata := L.udata.set addr { ud with block := u } }
  | none => L

/-- The calls `lua_newuserdata`, `luaL_getmetatable(L, tname)` and
`lua_setmetatable(L, -2)`: a new block, tagged with the metatable that
`luaopen_lxor` registered; yields its address. -/
def lua_newuserdata (L : lua_State) (tname : String) (u : cipher_userdata_t) :
    Nat × lua_State :=
  (L.udata.length, { L with udata := L.udata ++ [{ metatable := some tname, block := u }] })

/-- The call `free(p)` on a buffer with contents `buf`. -/
def lua_State.free (L : lua_State) (buf : List uint8_t) : lua_State :=
  { L with freed := L.freed ++ [buf] }

/-- `lxor.new("key")`, constructor for cipher. -/
def cipher_new (L : lua_State) (args : List LuaValue) : Result :=
  match luaL_checklstring args 1 with
  | Except.error e => Result.raised e L
  | Except.ok key =>
    match key with
    | none => Result.raised (LuaError.error "key cannot be empty") L
    | some kbytes =>
      let key_length := kbytes.length
      let (addr, L1) := lua_newuserdata L "LXorCipher" { key := none, key_length := 0 }
      let L2 := L1.store addr { key := none, key_length := key_length }
      let buf := memcpy (malloc key_length) kbytes key_length
      let L3 := L2.store addr { key := some buf, key_length := key_length }
      Result.ok [LuaValue.userdata addr] L3

/-- `cipher:encrypt("...")`. -/
def cipher_encrypt (L : lua_State) (args : List LuaValue) : Result :=
  match luaL_checkudata L args 1 "LXorCipher" with
  | Except.error e => Result.raised e L
  | Except.ok (_, u) =>
    match luaL_checklstring args 2 with
    | Except.error e => Result.raised e L
    | Except.ok plaintext =>
      match plaintext with
      | none => Result.raised (LuaError.error "plaintext cannot be empty") L
      | some ptext =>
        if ptext.length = 0 then Result.raised (LuaError.error "plaintext cannot be empty") L
        else
          match xor u.key u.key_length ptext with
          | Except.error ub => Result.undefined ub
          | Except.ok (ciphertext, ciphertext_length) =>
            Result.ok [LuaValue.string (ciphertext.take ciphertext_length)] L

/-- `cipher:decrypt("...")`: a special shortcut because xor is symmetric. -/
def cipher_decrypt (L : lua_State) (args : List LuaValue) : Result :=
  cipher_encrypt L args

/-- The cipher "destructor", registered as `__gc`. -/
def cipher_destroy (L : lua_State) (args : List LuaValue) : Result :=
  match luaL_checkudata L args 1 "LXorCipher" with
  | Except.error e => Result.raised e L
  | Except.ok (addr, u) =>
    match u.key with
    | none => Result.ok [] L
    | some buf =>
      if u.key_length ≤ buf.length then
        let zeroed := memset buf 0 u.key_length
        let L1 := L.free zeroed
        let L2 := L1.store addr { key := none, key_length := u.key_length }
        let L3 := L2.store addr { key := none, key_length := 0 }
        Result.ok [] L3
      else Result.undefined Undefined.invalid_write

/-- Representation invariant of the host memory: a block that has a key
buffer records the size of that buffer in `key_length`. -/
def lua_State.wf (L : lua_State) : Prop :=
  ∀ ud ∈ L.udata, ∀ buf : List uint8_t, ud.block.key = some buf → ud.block.key_length = buf.length

/-- Whether a host value is a handle of a cipher: a userdata whose metatable
is the one that `luaopen_lxor` registers as "LXorCipher". -/
def is_cipher_handle (L : lua_State) (v : LuaValue) : Bool :=
  match v with
  | LuaValue.userdata addr =>
    match L.udata[addr]? with
    | some ud => decide (ud.metatable = some "LXorCipher")
    | none => false
  | _ => false

theorem uint8_xor_val (a b : uint8_t) : (a ^^^ b).val = a.val ^^^ b.val := by
  have h : a.val ^^^ b.val < 2 ^ 8 := Nat.xor_lt_two_pow a.isLt b.isLt
  show (a.val ^^^ b.val) % 256 = _
  exact Nat.mod_eq_of_lt h

theorem uint8_xor_cancel (a b : uint8_t) : (a ^^^ b) ^^^ b = a := by
  apply Fin.ext
  rw [uint8_xor_val, uint8_xor_val, Nat.xor_assoc, Nat.xor_self, Nat.xor_zero]

theorem xor_loop_nil (key : Option (List uint8_t)) (key_length i : Nat) :
    xor_loop key key_length i [] = Except.ok [] := by
  simp [xor_loop]

theorem xor_loop_cons (k : List uint8_t) (i : Nat) (b : uint8_t) (rest : List uint8_t)
    (hi : i % k.length < k.length) :
    xor_loop (some k) k.length i (b :: rest) =
      match xor_loop (some k) k.length (i + 1) rest with
      | Except.ok out => Except.ok ((b ^^^ k.get ⟨i % k.length, hi⟩) :: out)
      | Except.error e => Except.error e := by
  have hne : k.length ≠ 0 := by omega
  simp [xor_loop, hne, List.getElem?_eq_getElem hi]

theorem xor_loop_spec (k : List uint8_t) (hk : 0 < k.length) :
    ∀ (input : List uint8_t) (i : Nat), ∃ out,
      xor_loop (some k) k.length i input = Except.ok out ∧ out.length = input.length ∧
      ∀ (j : Nat) (hj : j < input.length),
        out[j]? = some (input.get ⟨j, hj⟩ ^^^ k.get ⟨(i + j) % k.length, Nat.mod_lt _ hk⟩) := by
  intro input
  induction input with
  | nil => intro i; exact ⟨[], xor_loop_nil _ _ _, rfl, fun j hj => absurd hj (by simp)⟩
  | cons b rest ih =>
    intro i
    obtain ⟨out, h1, h2, h3⟩ := ih (i + 1)
    refine ⟨(b ^^^ k.get ⟨i % k.length, Nat.mod_lt _ hk⟩) :: out, ?_, ?_, ?_⟩
    · rw [xor_loop_cons k i b rest (Nat.mod_lt _ hk), h1]
    · simp [h2]
    · intro j hj
      cases j with
      | zero => simp
      | succ j =>
        have hj2 : j < rest.length := by simpa using hj
        have := h3 j hj2
        simp only [List.getElem?_cons_succ, this, List.get_eq_getElem, List.getElem_cons_succ]
        have e : (i + 1 + j) = (i + (j + 1)) := by omega
        simp [e]

theorem xor_loop_involutive (k : List uint8_t) (hk : 0 < k.length) :
    ∀ (input out : List uint8_t) (i : Nat),
      xor_loop (some k) k.length i input = Except.ok out →
      xor_loop (some k) k.length i out = Except.ok input := by
  intro input
  induction input with
  | nil =>
    intro out i h
    rw [xor_loop_nil] at h
    cases h
    exact xor_loop_nil _ _ _
  | cons b rest ih =>
    intro out i h
    rw [xor_loop_cons k i b rest (Nat.mod_lt _ hk)] at h
    obtain ⟨out1, h1, -, -⟩ := xor_loop_spec k hk rest (i + 1)
    rw [h1] at h
    cases h
    rw [xor_loop_cons k i _ out1 (Nat.mod_lt _ hk), ih out1 (i + 1) h1]
    simp [uint8_xor_cancel]

theorem memcpy_malloc (k : List uint8_t) : memcpy (malloc k.length) k k.length = k := by
  simp [memcpy, malloc]

theorem memset_all (buf : List uint8_t) (c : uint8_t) :
    memset buf c buf.length = List.replicate buf.length c := by
  simp [memset]

theorem xor_nonempty_key (k input : List uint8_t) (hk : k ≠ []) :
    ∃ out, xor (some k) k.length input = Except.ok (out, input.length) ∧
      out.length = input.length ∧
      ∀ (j : Nat) (hj : j < input.length),
        out[j]? = some (input.get ⟨j, hj⟩ ^^^
          k.get ⟨j % k.length, Nat.mod_lt _ (List.length_pos.mpr hk)⟩) := by
  obtain ⟨out, h1, h2, h3⟩ := xor_loop_spec k (List.length_pos.mpr hk) input 0
  refine ⟨out, ?_, h2, ?_⟩
  · simp [xor, h1]
  · intro j hj
    have := h3 j hj
    simpa using this

theorem store_new_block (L : lua_State) (ud : Userdata) (u : cipher_userdata_t) :
    lua_State.store { L with udata := L.udata ++ [ud] } L.udata.length u =
      { L with udata := L.udata ++ [{ ud with block := u }] } := by
  simp [lua_State.store]

theorem cipher_new_string (L : lua_State) (k : List uint8_t) (rest : List LuaValue) :
    cipher_new L (LuaValue.string k :: rest) =
      Result.ok [LuaValue.userdata L.udata.length]
        { L with udata := L.udata ++
            [{ metatable := some "LXorCipher", block := { key := some k, key_length := k.length } }] } := by
  simp [cipher_new, luaL_checklstring, lua_newuserdata, store_new_block, memcpy_malloc]

theorem checkudata_cipher (L : lua_State) (addr : Nat) (u : cipher_userdata_t)
    (rest : List LuaValue)
    (h : L.udata[addr]? = some { metatable := some "LXorCipher", block := u }) :
    luaL_checkudata L (LuaValue.userdata addr :: rest) 1 "LXorCipher" = Except.ok (addr, u) := by
  simp [luaL_checkudata, h]

theorem cipher_encrypt_string (L : lua_State) (addr : Nat) (u : cipher_userdata_t)
    (m : List uint8_t) (rest : List LuaValue)
    (h : L.udata[addr]? = some { metatable := some "LXorCipher", block := u }) :
    cipher_encrypt L (LuaValue.userdata addr :: LuaValue.string m :: rest) =
      if m.length = 0 then Result.raised (LuaError.error "plaintext cannot be empty") L
      else
        match xor u.key u.key_length m with
        | Except.error ub => Result.undefined ub
        | Except.ok (ciphertext, ciphertext_length) =>
          Result.ok [LuaValue.string (ciphertext.take ciphertext_length)] L := by
  simp [cipher_encrypt, checkudata_cipher L addr u _ h, luaL_checklstring]

theorem xor_loop_length (key : Option (List uint8_t)) (key_length : Nat) :
    ∀ (input out : List uint8_t) (i : Nat),
      xor_loop key key_length i input = Except.ok out → out.length = input.length := by
  intro input
  induction input with
  | nil =>
    intro out i h
    rw [xor_loop_nil] at h
    cases h
    rfl
  | cons b rest ih =>
    intro out i h
    unfold xor_loop at h
    split at h
    · cases h
    · split at h
      · cases h
      · split at h
        · cases h
        · split at h
          · rename_i out1 h1
            cases h
            simp [ih out1 (i + 1) h1]
          · cases h

theorem xor_length (key : Option (List uint8_t)) (key_length : Nat)
    (input out : List uint8_t) (n : Nat)
    (h : xor key key_length input = Except.ok (out, n)) :
    out.length = input.length ∧ n = input.length := by
  unfold xor at h
  split at h
  · rename_i buffer h1
    cases h
    exact ⟨xor_loop_length key key_length input _ 0 h1, rfl⟩
  · cases h

theorem xor_involutive (k x y : List uint8_t) (n : Nat) (hk : k ≠ [])
    (h : xor (some k) k.length x = Except.ok (y, n)) :
    xor (some k) k.length y = Except.ok (x, x.length) := by
  have hlen := (xor_length _ _ _ _ _ h).1
  unfold xor at h
  split at h
  · rename_i buffer h1
    cases h
    have h2 := xor_loop_involutive k (List.length_pos.mpr hk) x _ 0 h1
    simp [xor, h2, hlen]
  · cases h

theorem new_block_lookup (L : lua_State) (ud : Userdata) :
    (L.udata ++ [ud])[L.udata.length]? = some ud := by
  simp

theorem encrypt_nonempty (L : lua_State) (addr : Nat) (k m : List uint8_t)
    (rest : List LuaValue) (hk : k ≠ []) (hm : m ≠ [])
    (h : L.udata[addr]? =
      some { metatable := some "LXorCipher", block := { key := some k, key_length := k.length } }) :
    ∃ c, xor (some k) k.length m = Except.ok (c, m.length) ∧ c.length = m.length ∧
      cipher_encrypt L (LuaValue.userdata addr :: LuaValue.string m :: rest) =
        Result.ok [LuaValue.string c] L := by
  obtain ⟨c, hc, hlen, -⟩ := xor_nonempty_key k m hk
  refine ⟨c, hc, hlen, ?_⟩
  have hm0 : m.length ≠ 0 := fun e => hm (List.length_eq_zero.mp e)
  rw [cipher_encrypt_string L addr _ m rest h, if_neg hm0, hc]
  simp only [← hlen, List.take_length]

/-- C1: for a non-empty key `k` and a non-empty message `m`, constructing a
cipher from `k`, encrypting `m` with it and decrypting the result with the
same cipher returns exactly `m`; and applying `xor` twice with the key `k`
to any input `x` gives back `x`. -/
theorem encrypt_decrypt_roundtrip (L : lua_State) (k m x : List uint8_t)
    (hk : k ≠ []) (hm : m ≠ []) :
    (∃ (h : LuaValue) (L1 : lua_State) (c : List uint8_t),
      cipher_new L [LuaValue.string k] = Result.ok [h] L1 ∧
      cipher_encrypt L1 [h, LuaValue.string m] = Result.ok [LuaValue.string c] L1 ∧
      cipher_decrypt L1 [h, LuaValue.string c] = Result.ok [LuaValue.string m] L1) ∧
    (∃ y : List uint8_t,
      xor (some k) k.length x = Except.ok (y, x.length) ∧
      xor (some k) k.length y = Except.ok (x, x.length)) := by
  constructor
  · have hL := new_block_lookup L
      { metatable := some "LXorCipher", block := { key := some k, key_length := k.length } }
    obtain ⟨c, hc, hlen, henc⟩ := encrypt_nonempty
      { L with udata := L.udata ++
          [{ metatable := some "LXorCipher", block := { key := some k, key_length := k.length } }] }
      L.udata.length k m [] hk hm hL
    have hc0 : c ≠ [] := by
      intro e
      rw [e] at hlen
      exact hm (List.length_eq_zero.mp hlen.symm)
    obtain ⟨d, hd, -, hdec⟩ := encrypt_nonempty
      { L with udata := L.udata ++
          [{ metatable := some "LXorCipher", block := { key := some k, key_length := k.length } }] }
      L.udata.length k c [] hk hc0 hL
    have hinv := xor_involutive k m c _ hk hc
    rw [hd] at hinv
    have hdm : d = m := by
      have := Except.ok.inj hinv
      exact (Prod.mk.inj this).1
    refine ⟨LuaValue.userdata L.udata.length, _, c, cipher_new_string L k [], henc, ?_⟩
    rw [cipher_decrypt, hdec, hdm]
  · obtain ⟨y, hy, -, -⟩ := xor_nonempty_key k x hk
    exact ⟨y, hy, xor_involutive k x y _ hk hy⟩

theorem encrypt_decrypt_roundtrip_witness :
    ([0x41, 0x42] : List uint8_t) ≠ [] ∧ ([0x10, 0x20, 0x30] : List uint8_t) ≠ [] ∧
    ((∃ (h : LuaValue) (L1 : lua_State) (c : List uint8_t),
      cipher_new { udata := [], freed := [] } [LuaValue.string [0x41, 0x42]] = Result.ok [h] L1 ∧
      cipher_encrypt L1 [h, LuaValue.string [0x10, 0x20, 0x30]] = Result.ok [LuaValue.string c] L1 ∧
      cipher_decrypt L1 [h, LuaValue.string c] = Result.ok [LuaValue.string [0x10, 0x20, 0x30]] L1) ∧
    (∃ y : List uint8_t,
      xor (some [0x41, 0x42]) ([0x41, 0x42] : List uint8_t).length [0x07] = Except.ok (y, ([0x07] : List uint8_t).length) ∧
      xor (some [0x41, 0x42]) ([0x41, 0x42] : List uint8_t).length y = Except.ok ([0x07], ([0x07] : List uint8_t).length))) :=
  ⟨by decide, by decide,
    encrypt_decrypt_roundtrip { udata := [], freed := [] } [0x41, 0x42] [0x10, 0x20, 0x30] [0x07]
      (by decide) (by decide)⟩

theorem encrypt_returns_length (L0 L2 : lua_State) (args : List LuaValue)
    (msg : List uint8_t) (vs : List LuaValue)
    (harg : args[1]? = some (LuaValue.string msg))
    (h : cipher_encrypt L0 args = Result.ok vs L2) :
    ∃ c : List uint8_t, vs = [LuaValue.string c] ∧ c.length = msg.length := by
  unfold cipher_encrypt at h
  split at h
  · cases h
  · simp only [luaL_checklstring, Nat.add_one_sub_one, harg] at h
    split at h
    · cases h
    · rename_i u
      split at h
      · rename_i ub hx
        cases h
      · rename_i ciphertext ciphertext_length hx
        obtain ⟨h1, h2⟩ := xor_length _ _ _ _ _ hx
        cases h
        exact ⟨_, rfl, by simp [h1, h2]⟩

/-- C2: for a non-empty key and any input, `xor` returns an output whose byte
at each index `i < len(input)` is `input[i] XOR key[i mod len(key)]`; for the
key "AB" and the input bytes 10, 20, 30 (hexadecimal) the output is
51, 62, 71. -/
theorem xor_output_bytes (k input : List uint8_t) (hk : k ≠ []) :
    (∃ out : List uint8_t,
      xor (some k) k.length input = Except.ok (out, input.length) ∧
      out.length = input.length ∧
      ∀ (i : Nat) (hi : i < input.length),
        out[i]? = some (input.get ⟨i, hi⟩ ^^^
          k.get ⟨i % k.length, Nat.mod_lt i (List.length_pos.mpr hk)⟩)) ∧
    xor (some [0x41, 0x42]) 2 [0x10, 0x20, 0x30] = Except.ok ([0x51, 0x62, 0x71], 3) :=
  ⟨xor_nonempty_key k input hk, rfl⟩

theorem xor_output_bytes_witness :
    ([0x41, 0x42] : List uint8_t) ≠ [] ∧
    ((∃ out : List uint8_t,
      xor (some [0x41, 0x42]) ([0x41, 0x42] : List uint8_t).length [0x10, 0x20, 0x30] =
        Except.ok (out, ([0x10, 0x20, 0x30] : List uint8_t).length) ∧
      out.length = ([0x10, 0x20, 0x30] : List uint8_t).length ∧
      ∀ (i : Nat) (hi : i < ([0x10, 0x20, 0x30] : List uint8_t).length),
        out[i]? = some (([0x10, 0x20, 0x30] : List uint8_t).get ⟨i, hi⟩ ^^^
          ([0x41, 0x42] : List uint8_t).get ⟨i % 2, Nat.mod_lt i (by decide)⟩)) ∧
    xor (some [0x41, 0x42]) 2 [0x10, 0x20, 0x30] = Except.ok ([0x51, 0x62, 0x71], 3)) :=
  ⟨by decide, xor_output_bytes [0x41, 0x42] [0x10, 0x20, 0x30] (by decide)⟩

/-- C3: the ciphertext that `cipher_encrypt` returns for a message `m` has
the length of `m`: a cipher built from a non-empty key returns one for every
non-empty message, and whatever the receiver and its key, a call that returns
yields exactly one string of that length. The output of `xor` has the length
of its input: with a non-empty key it always returns, with any key the
empty input gives the empty output, and any output it returns has the
input length. -/
theorem length_preservation (L : lua_State) (k m input : List uint8_t)
    (hk : k ≠ []) (hm : m ≠ []) :
    (∃ (h : LuaValue) (L1 : lua_State) (c : List uint8_t),
      cipher_new L [LuaValue.string k] = Result.ok [h] L1 ∧
      cipher_encrypt L1 [h, LuaValue.string m] = Result.ok [LuaValue.string c] L1 ∧
      c.length = m.length) ∧
    (∀ (L0 L2 : lua_State) (h : LuaValue) (msg : List uint8_t) (vs : List LuaValue),
      cipher_encrypt L0 [h, LuaValue.string msg] = Result.ok vs L2 →
      ∃ c : List uint8_t, vs = [LuaValue.string c] ∧ c.length = msg.length) ∧
    (∃ out : List uint8_t,
      xor (some k) k.length input = Except.ok (out, input.length) ∧
      out.length = input.length) ∧
    (∀ (key : Option (List uint8_t)) (key_length : Nat),
      xor key key_length [] = Except.ok ([], 0)) ∧
    (∀ (key : Option (List uint8_t)) (key_length n : Nat) (out : List uint8_t),
      xor key key_length input = Except.ok (out, n) →
      out.length = input.length ∧ n = input.length) := by
  refine ⟨?_, ?_, ?_, ?_, ?_⟩
  · obtain ⟨c, -, hlen, henc⟩ := encrypt_nonempty
      { L with udata := L.udata ++
          [{ metatable := some "LXorCipher", block := { key := some k, key_length := k.length } }] }
      L.udata.length k m [] hk hm (new_block_lookup L _)
    exact ⟨LuaValue.userdata L.udata.length, _, c, cipher_new_string L k [], henc, hlen⟩
  · intro L0 L2 h msg vs hres
    exact encrypt_returns_length L0 L2 [h, LuaValue.string msg] msg vs rfl hres
  · obtain ⟨out, h1, h2, -⟩ := xor_nonempty_key k input hk
    exact ⟨out, h1, h2⟩
  · intro key key_length
    rfl
  · intro key key_length n out h
    exact xor_length key key_length input out n h

theorem length_preservation_witness :
    ([0x6b] : List uint8_t) ≠ [] ∧ ([0x10, 0x20] : List uint8_t) ≠ [] ∧
    ((∃ (h : LuaValue) (L1 : lua_State) (c : List uint8_t),
      cipher_new { udata := [], freed := [] } [LuaValue.string [0x6b]] = Result.ok [h] L1 ∧
      cipher_encrypt L1 [h, LuaValue.string [0x10, 0x20]] = Result.ok [LuaValue.string c] L1 ∧
      c.length = ([0x10, 0x20] : List uint8_t).length) ∧
    (∀ (L0 L2 : lua_State) (h : LuaValue) (msg : List uint8_t) (vs : List LuaValue),
      cipher_encrypt L0 [h, LuaValue.string msg] = Result.ok vs L2 →
      ∃ c : List uint8_t, vs = [LuaValue.string c] ∧ c.length = msg.length) ∧
    (∃ out : List uint8_t,
      xor (some [0x6b]) ([0x6b] : List uint8_t).length [] = Except.ok (out, ([] : List uint8_t).length) ∧
      out.length = ([] : List uint8_t).length) ∧
    (∀ (key : Option (List uint8_t)) (key_length : Nat),
      xor key key_length [] = Except.ok ([], 0)) ∧
    (∀ (key : Option (List uint8_t)) (key_length n : Nat) (out : List uint8_t),
      xor key key_length [] = Except.ok (out, n) →
      out.length = ([] : List uint8_t).length ∧ n = ([] : List uint8_t).length)) :=
  ⟨by decide, by decide,
    length_preservation { udata := [], freed := [] } [0x6b] [0x10, 0x20] [] (by decide) (by decide)⟩
theorem cipher_new_never_key_error (L L1 : lua_State) (args : List LuaValue) :
    cipher_new L args ≠ Result.raised (LuaError.error "key cannot be empty") L1 := by
  intro h
  unfold cipher_new luaL_checklstring at h
  split at h
  · rename_i e he
    split at he
    · cases he
    · cases he
    · cases he
      cases h
  · rename_i key hkey
    split at hkey
    · cases hkey
      simp at h
    · cases hkey
      simp at h
    · cases hkey

theorem store_block (L : lua_State) (addr : Nat) (ud : Userdata) (u : cipher_userdata_t)
    (h : L.udata[addr]? = some ud) :
    L.store addr u = { L with udata := L.udata.set addr { ud with block := u } } := by
  simp [lua_State.store, h]

theorem set_lookup (l : List Userdata) (addr : Nat) (ud ud1 : Userdata)
    (h : l[addr]? = some ud) : (l.set addr ud1)[addr]? = some ud1 := by
  have hlt : addr < l.length := by
    by_contra hge
    rw [List.getElem?_eq_none (Nat.le_of_not_lt hge)] at h
    cases h
  simp [List.getElem?_set, hlt]

theorem cipher_destroy_null (L : lua_State) (addr : Nat) (mt : Option String) (n : Nat)
    (rest : List LuaValue) (hmt : mt = some "LXorCipher")
    (h : L.udata[addr]? = some { metatable := mt, block := { key := none, key_length := n } }) :
    cipher_destroy L (LuaValue.userdata addr :: rest) = Result.ok [] L := by
  subst hmt
  simp [cipher_destroy, checkudata_cipher L addr _ rest h]

theorem cipher_destroy_buffer (L : lua_State) (addr : Nat) (buf : List uint8_t) (n : Nat)
    (rest : List LuaValue) (hn : n ≤ buf.length)
    (h : L.udata[addr]? =
      some { metatable := some "LXorCipher", block := { key := some buf, key_length := n } }) :
    cipher_destroy L (LuaValue.userdata addr :: rest) =
      Result.ok []
        { udata := L.udata.set addr
            { metatable := some "LXorCipher", block := { key := none, key_length := 0 } },
          freed := L.freed ++ [memset buf 0 n] } := by
  have h1 : (L.free (memset buf 0 n)).udata[addr]? =
      some { metatable := some "LXorCipher", block := { key := some buf, key_length := n } } := h
  simp only [cipher_destroy, checkudata_cipher L addr _ rest h, if_pos hn]
  rw [store_block _ addr _ _ h1]
  rw [store_block _ addr _ _ (set_lookup _ addr _ _ h1)]
  simp [lua_State.free]

theorem cipher_encrypt_state (L L1 : lua_State) (args : List LuaValue) :
    (∀ vs : List LuaValue, cipher_encrypt L args = Result.ok vs L1 → L1 = L) ∧
    (∀ e : LuaError, cipher_encrypt L args = Result.raised e L1 → L1 = L) := by
  unfold cipher_encrypt
  constructor
  · intro vs h
    split at h
    · cases h
    · split at h
      · cases h
      · split at h
        · cases h
        · split at h
          · cases h
          · split at h
            · cases h
            · cases h
              rfl
  · intro e h
    split at h
    · cases h
      rfl
    · split at h
      · cases h
        rfl
      · split at h
        · cases h
          rfl
        · split at h
          · cases h
            rfl
          · split at h
            · cases h
            · cases h

theorem cipher_new_wf (L L1 : lua_State) (args : List LuaValue) (hwf : L.wf) :
    (∀ vs : List LuaValue, cipher_new L args = Result.ok vs L1 → L1.wf) ∧
    (∀ e : LuaError, cipher_new L args = Result.raised e L1 → L1.wf) := by
  unfold cipher_new
  constructor
  · intro vs h
    split at h
    · cases h
    · split at h
      · cases h
      · rename_i kbytes
        simp only [lua_newuserdata, store_new_block, memcpy_malloc] at h
        cases h
        intro ud hud buf hbuf
        rcases List.mem_append.mp hud with hin | hin
        · exact hwf ud hin buf hbuf
        · rw [List.mem_singleton.mp hin] at hbuf
          cases hbuf
          rw [List.mem_singleton.mp hin]
  · intro e h
    split at h
    · cases h
      exact hwf
    · split at h
      · cases h
        exact hwf
      · simp only [lua_newuserdata, store_new_block, memcpy_malloc] at h
        cases h

theorem store_wf (L : lua_State) (addr : Nat) (u : cipher_userdata_t) (hwf : L.wf)
    (hu : ∀ buf : List uint8_t, u.key = some buf → u.key_length = buf.length) :
    (L.store addr u).wf := by
  unfold lua_State.store
  split
  · intro ud hud buf hbuf
    rcases List.mem_or_eq_of_mem_set hud with hin | hin
    · exact hwf ud hin buf hbuf
    · rw [hin] at hbuf ⊢
      exact hu buf hbuf
  · exact hwf

theorem free_wf (L : lua_State) (buf : List uint8_t) (hwf : L.wf) : (L.free buf).wf :=
  hwf

theorem cipher_destroy_wf (L L1 : lua_State) (args : List LuaValue) (hwf : L.wf) :
    (∀ vs : List LuaValue, cipher_destroy L args = Result.ok vs L1 → L1.wf) ∧
    (∀ e : LuaError, cipher_destroy L args = Result.raised e L1 → L1.wf) := by
  unfold cipher_destroy
  constructor
  · intro vs h
    split at h
    · cases h
    · split at h
      · cases h
        exact hwf
      · split at h
        · cases h
          apply store_wf
          · apply store_wf
            · exact free_wf _ _ hwf
            · intro buf hbuf
              cases hbuf
          · intro buf hbuf
            cases hbuf
        · cases h
  · intro e h
    split at h
    · cases h
      exact hwf
    · split at h
      · cases h
      · split at h
        · cases h
        · cases h

/-- C4: the claim is that `cipher_new` called with the empty key fails with
the error "key cannot be empty" and makes no cipher. The code does otherwise:
the call returns a handle to a new block with an empty key buffer and
`key_length` 0, and the error "key cannot be empty" is raised for no
arguments at all, its test `key == NULL` being false for every string. -/
theorem cipher_new_empty_key (L : lua_State) :
    cipher_new L [LuaValue.string []] =
      Result.ok [LuaValue.userdata L.udata.length]
        { udata := L.udata ++
            [{ metatable := some "LXorCipher", block := { key := some [], key_length := 0 } }],
          freed := L.freed } ∧
    ∀ (args : List LuaValue) (L1 : lua_State),
      cipher_new L args ≠ Result.raised (LuaError.error "key cannot be empty") L1 :=
  ⟨cipher_new_string L [] [], fun args L1 => cipher_new_never_key_error L L1 args⟩

/-- C5: on a cipher handle, whatever the key block behind it holds,
`cipher_encrypt` and `cipher_decrypt` called with the empty message raise
the error "plaintext cannot be empty", leave the state as it was and return
no bytes; the outcome does not depend on the key, `xor` not being reached. -/
theorem empty_message_rejected (L : lua_State) (addr : Nat) (u : cipher_userdata_t)
    (rest : List LuaValue)
    (h : L.udata[addr]? = some { metatable := some "LXorCipher", block := u }) :
    cipher_encrypt L (LuaValue.userdata addr :: LuaValue.string [] :: rest) =
      Result.raised (LuaError.error "plaintext cannot be empty") L ∧
    cipher_decrypt L (LuaValue.userdata addr :: LuaValue.string [] :: rest) =
      Result.raised (LuaError.error "plaintext cannot be empty") L := by
  have henc := cipher_encrypt_string L addr u [] rest h
  rw [if_pos (List.length_nil : ([] : List uint8_t).length = 0)] at henc
  exact ⟨henc, henc⟩

theorem empty_message_rejected_witness :
    ({ udata := [{ metatable := some "LXorCipher",
                   block := { key := some [0x6b], key_length := 1 } }],
       freed := [] } : lua_State).udata[0]? =
      some { metatable := some "LXorCipher", block := { key := some [0x6b], key_length := 1 } } ∧
    (cipher_encrypt
        { udata := [{ metatable := some "LXorCipher",
                      block := { key := some [0x6b], key_length := 1 } }],
          freed := [] }
        (LuaValue.userdata 0 :: LuaValue.string [] :: []) =
      Result.raised (LuaError.error "plaintext cannot be empty")
        { udata := [{ metatable := some "LXorCipher",
                      block := { key := some [0x6b], key_length := 1 } }],
          freed := [] } ∧
    cipher_decrypt
        { udata := [{ metatable := some "LXorCipher",
                      block := { key := some [0x6b], key_length := 1 } }],
          freed := [] }
        (LuaValue.userdata 0 :: LuaValue.string [] :: []) =
      Result.raised (LuaError.error "plaintext cannot be empty")
        { udata := [{ metatable := some "LXorCipher",
                      block := { key := some [0x6b], key_length := 1 } }],
          freed := [] }) :=
  ⟨rfl, empty_message_rejected _ 0 { key := some [0x6b], key_length := 1 } [] rfl⟩

/-- C6: for a live cipher whose key buffer holds `n` bytes, `cipher_destroy`
returns normally; the buffer it hands to `free` holds `n` zero bytes at that
moment, and afterwards the block has `key = NULL` and `key_length = 0`, the
other blocks being untouched. -/
theorem destroy_zeroes_key (L : lua_State) (addr : Nat) (buf : List uint8_t)
    (hlive : L.udata[addr]? =
      some { metatable := some "LXorCipher",
             block := { key := some buf, key_length := buf.length } }) :
    ∃ L1 : lua_State,
      cipher_destroy L [LuaValue.userdata addr] = Result.ok [] L1 ∧
      L1.freed = L.freed ++ [List.replicate buf.length 0] ∧
      L1.udata[addr]? =
        some { metatable := some "LXorCipher", block := { key := none, key_length := 0 } } ∧
      ∀ other : Nat, other ≠ addr → L1.udata[other]? = L.udata[other]? := by
  refine ⟨_, cipher_destroy_buffer L addr buf buf.length [] (Nat.le_refl _) hlive, ?_, ?_, ?_⟩
  · simp [memset_all]
  · exact set_lookup _ addr _ _ hlive
  · intro other hne
    simp [List.getElem?_set, Ne.symm hne]

theorem destroy_zeroes_key_witness :
    ({ udata := [{ metatable := some "LXorCipher",
                   block := { key := some [0x41, 0x42],
                              key_length := ([0x41, 0x42] : List uint8_t).length } }],
       freed := [] } : lua_State).udata[0]? =
      some { metatable := some "LXorCipher",
             block := { key := some [0x41, 0x42],
                        key_length := ([0x41, 0x42] : List uint8_t).length } } ∧
    ∃ L1 : lua_State,
      cipher_destroy
          { udata := [{ metatable := some "LXorCipher",
                        block := { key := some [0x41, 0x42],
                                   key_length := ([0x41, 0x42] : List uint8_t).length } }],
            freed := [] }
          [LuaValue.userdata 0] = Result.ok [] L1 ∧
      L1.freed = ([] : List (List uint8_t)) ++
        [List.replicate ([0x41, 0x42] : List uint8_t).length 0] ∧
      L1.udata[0]? =
        some { metatable := some "LXorCipher", block := { key := none, key_length := 0 } } ∧
      ∀ other : Nat, other ≠ 0 →
        L1.udata[other]? =
          ({ udata := [{ metatable := some "LXorCipher",
                         block := { key := some [0x41, 0x42],
                                    key_length := ([0x41, 0x42] : List uint8_t).length } }],
             freed := [] } : lua_State).udata[other]? :=
  ⟨rfl, destroy_zeroes_key
    { udata := [{ metatable := some "LXorCipher",
                  block := { key := some [0x41, 0x42],
                             key_length := ([0x41, 0x42] : List uint8_t).length } }],
      freed := [] } 0 [0x41, 0x42] rfl⟩

/-- C7: on a cipher handle in a well-formed state (a block that has a key
buffer records the size of that buffer), `cipher_destroy` raises nothing and
returns normally; run again on the state it leaves, it returns normally and
leaves that state as it is; and on a block whose key is already `NULL` it
changes nothing at all. -/
theorem destroy_idempotent (L : lua_State) (addr : Nat) (u : cipher_userdata_t)
    (h : L.udata[addr]? = some { metatable := some "LXorCipher", block := u })
    (hwf : L.wf) :
    ∃ L1 : lua_State,
      cipher_destroy L [LuaValue.userdata addr] = Result.ok [] L1 ∧
      cipher_destroy L1 [LuaValue.userdata addr] = Result.ok [] L1 ∧
      (u.key = none → L1 = L) := by
  have hmem := List.mem_iff_getElem?.mpr ⟨addr, h⟩
  obtain ⟨key, n⟩ := u
  cases key with
  | none =>
    have hd := cipher_destroy_null L addr _ n [] rfl h
    exact ⟨L, hd, hd, fun _ => rfl⟩
  | some buf =>
    have hn : n ≤ buf.length := Nat.le_of_eq (hwf _ hmem buf rfl)
    refine ⟨_, cipher_destroy_buffer L addr buf n [] hn h, ?_, ?_⟩
    · exact cipher_destroy_null _ addr _ 0 [] rfl (set_lookup _ addr _ _ h)
    · intro hnone
      cases hnone

theorem destroy_idempotent_witness :
    ({ udata := [{ metatable := some "LXorCipher",
                   block := { key := some [0x41, 0x42], key_length := 2 } }],
       freed := [] } : lua_State).udata[0]? =
      some { metatable := some "LXorCipher",
             block := { key := some [0x41, 0x42], key_length := 2 } } ∧
    ({ udata := [{ metatable := some "LXorCipher",
                   block := { key := some [0x41, 0x42], key_length := 2 } }],
       freed := [] } : lua_State).wf ∧
    ∃ L1 : lua_State,
      cipher_destroy
          { udata := [{ metatable := some "LXorCipher",
                        block := { key := some [0x41, 0x42], key_length := 2 } }],
            freed := [] }
          [LuaValue.userdata 0] = Result.ok [] L1 ∧
      cipher_destroy L1 [LuaValue.userdata 0] = Result.ok [] L1 ∧
      (({ key := some [0x41, 0x42], key_length := 2 } : cipher_userdata_t).key = none →
        L1 = { udata := [{ metatable := some "LXorCipher",
                           block := { key := some [0x41, 0x42], key_length := 2 } }],
               freed := [] }) :=
  ⟨rfl,
    by simp [lua_State.wf],
    destroy_idempotent
      { udata := [{ metatable := some "LXorCipher",
                    block := { key := some [0x41, 0x42], key_length := 2 } }],
        freed := [] }
      0 { key := some [0x41, 0x42], key_length := 2 } rfl
      (by simp [lua_State.wf])⟩

/-- C8: the claim is that `cipher_encrypt` and `cipher_decrypt` on a destroyed
cipher fail with a use-after-destroy error. The code has no such test: after
`new("k")` and a run of the destructor the block holds `key = NULL` and
`key_length = 0`, and `encrypt("a")` on it goes on into `xor`, which
evaluates `0 % 0`, undefined behaviour; no error is raised in the host. -/
theorem encrypt_after_destroy :
    cipher_new { udata := [], freed := [] } [LuaValue.string [0x6b]] =
      Result.ok [LuaValue.userdata 0]
        { udata := [{ metatable := some "LXorCipher",
                      block := { key := some [0x6b], key_length := 1 } }],
          freed := [] } ∧
    cipher_destroy
        { udata := [{ metatable := some "LXorCipher",
                      block := { key := some [0x6b], key_length := 1 } }],
          freed := [] }
        [LuaValue.userdata 0] =
      Result.ok []
        { udata := [{ metatable := some "LXorCipher",
                      block := { key := none, key_length := 0 } }],
          freed := [[0x00]] } ∧
    cipher_encrypt
        { udata := [{ metatable := some "LXorCipher",
                      block := { key := none, key_length := 0 } }],
          freed := [[0x00]] }
        [LuaValue.userdata 0, LuaValue.string [0x61]] =
      Result.undefined Undefined.division_by_zero ∧
    cipher_decrypt
        { udata := [{ metatable := some "LXorCipher",
                      block := { key := none, key_length := 0 } }],
          freed := [[0x00]] }
        [LuaValue.userdata 0, LuaValue.string [0x61]] =
      Result.undefined Undefined.division_by_zero :=
  ⟨rfl, rfl, rfl, rfl⟩

/-- C9, as stated, fails: with an empty key and the empty input `xor` does
not fail, it returns the empty output buffer. -/
theorem xor_empty_key_counterexample :
    xor (some []) 0 [] = Except.ok ([], 0) ∧
    ¬ (∀ input : List uint8_t, ∃ e : Undefined, xor (some []) 0 input = Except.error e) := by
  refine ⟨rfl, ?_⟩
  intro hall
  obtain ⟨e, he⟩ := hall []
  cases he

/-- C9, amended: called with `key_length = 0` and the empty input, whatever
the key pointer, `xor` reports no error and returns the empty output buffer
with `out_length = 0`; the loop body, and the modulus in it, is not run. -/
theorem xor_empty_key_empty_input (key : Option (List uint8_t)) :
    xor key 0 [] = Except.ok ([], 0) :=
  rfl

/-- C10: the claim is that a cipher that came out of the constructor and
has not been destroyed holds a key of length at least 1. The code breaks it:
`new("")` succeeds and leaves a block that is not destroyed (its key
pointer is not `NULL`) with `key_length = 0`; `encrypt("a")` on it then
evaluates the modulus `0 % 0` inside `xor`. -/
theorem key_length_zero_reachable :
    cipher_new { udata := [], freed := [] } [LuaValue.string []] =
      Result.ok [LuaValue.userdata 0]
        { udata := [{ metatable := some "LXorCipher",
                      block := { key := some [], key_length := 0 } }],
          freed := [] } ∧
    ¬ (1 ≤ ({ key := some [], key_length := 0 } : cipher_userdata_t).key_length) ∧
    cipher_encrypt
        { udata := [{ metatable := some "LXorCipher",
                      block := { key := some [], key_length := 0 } }],
          freed := [] }
        [LuaValue.userdata 0, LuaValue.string [0x61]] =
      Result.undefined Undefined.division_by_zero :=
  ⟨rfl, by decide, rfl⟩

theorem cipher_encrypt_live (L : lua_State) (addr : Nat) (k : List uint8_t)
    (tail : List LuaValue) (hk : k ≠ [])
    (h : L.udata[addr]? =
      some { metatable := some "LXorCipher", block := { key := some k, key_length := k.length } }) :
    (∃ vs : List LuaValue, cipher_encrypt L (LuaValue.userdata addr :: tail) = Result.ok vs L) ∨
    (∃ e : LuaError, cipher_encrypt L (LuaValue.userdata addr :: tail) = Result.raised e L) := by
  unfold cipher_encrypt
  rw [checkudata_cipher L addr _ tail h]
  simp only
  split
  · exact Or.inr ⟨_, rfl⟩
  · split
    · exact Or.inr ⟨_, rfl⟩
    · rename_i ptext _
      split
      · exact Or.inr ⟨_, rfl⟩
      · obtain ⟨c, hc, -, -⟩ := xor_nonempty_key k ptext hk
        simp only [hc]
        exact Or.inl ⟨_, rfl⟩

/-- C11: for a non-empty key `k`, `cipher_new` returns normally with one
value, the handle of a new block tagged as a cipher; the block holds a key
buffer that is not `NULL` and equals `k` byte for byte, and its
`key_length` is the length of `k`, which is at least 1; the blocks that
existed before are as they were. -/
theorem cipher_new_copies_key (L : lua_State) (k : List uint8_t) (hk : k ≠ []) :
    ∃ (addr : Nat) (L1 : lua_State),
      cipher_new L [LuaValue.string k] = Result.ok [LuaValue.userdata addr] L1 ∧
      L1.udata[addr]? =
        some { metatable := some "LXorCipher",
               block := { key := some k, key_length := k.length } } ∧
      1 ≤ k.length ∧
      L1.udata = L.udata ++
        [{ metatable := some "LXorCipher", block := { key := some k, key_length := k.length } }] ∧
      L1.freed = L.freed :=
  ⟨L.udata.length, _, cipher_new_string L k [], new_block_lookup L _,
    List.length_pos.mpr hk, rfl, rfl⟩

theorem cipher_new_copies_key_witness :
    ([0x41, 0x42] : List uint8_t) ≠ [] ∧
    ∃ (addr : Nat) (L1 : lua_State),
      cipher_new { udata := [], freed := [] } [LuaValue.string [0x41, 0x42]] =
        Result.ok [LuaValue.userdata addr] L1 ∧
      L1.udata[addr]? =
        some { metatable := some "LXorCipher",
               block := { key := some [0x41, 0x42],
                          key_length := ([0x41, 0x42] : List uint8_t).length } } ∧
      1 ≤ ([0x41, 0x42] : List uint8_t).length ∧
      L1.udata = ([] : List Userdata) ++
        [{ metatable := some "LXorCipher",
           block := { key := some [0x41, 0x42],
                      key_length := ([0x41, 0x42] : List uint8_t).length } }] ∧
      L1.freed = ([] : List (List uint8_t)) :=
  ⟨by decide, cipher_new_copies_key { udata := [], freed := [] } [0x41, 0x42] (by decide)⟩

/-- C12: `cipher_decrypt` is `cipher_encrypt`: in every state and for every
list of arguments the two yield the same outcome, be it the values returned
and the state left, the error raised and the state left, or undefined
behaviour. -/
theorem decrypt_is_encrypt (L : lua_State) (args : List LuaValue) :
    cipher_decrypt L args = cipher_encrypt L args :=
  rfl

/-- C13: `cipher_encrypt` and `cipher_decrypt` do not change the state. On
a cipher that holds a non-empty key, whatever the other arguments, the call
ends either with a normal return or with an error raised, and in both cases
the state left is the state it started in; and in any state and for any
arguments, every outcome that leaves a state leaves the initial one. -/
theorem encrypt_keeps_state (L : lua_State) (addr : Nat) (k : List uint8_t)
    (tail : List LuaValue) (hk : k ≠ [])
    (h : L.udata[addr]? =
      some { metatable := some "LXorCipher", block := { key := some k, key_length := k.length } }) :
    ((∃ vs : List LuaValue,
        cipher_encrypt L (LuaValue.userdata addr :: tail) = Result.ok vs L) ∨
      (∃ e : LuaError,
        cipher_encrypt L (LuaValue.userdata addr :: tail) = Result.raised e L)) ∧
    ((∃ vs : List LuaValue,
        cipher_decrypt L (LuaValue.userdata addr :: tail) = Result.ok vs L) ∨
      (∃ e : LuaError,
        cipher_decrypt L (LuaValue.userdata addr :: tail) = Result.raised e L)) ∧
    (∀ (L0 L1 : lua_State) (args : List LuaValue),
      (∀ vs : List LuaValue, cipher_encrypt L0 args = Result.ok vs L1 → L1 = L0) ∧
      (∀ e : LuaError, cipher_encrypt L0 args = Result.raised e L1 → L1 = L0) ∧
      (∀ vs : List LuaValue, cipher_decrypt L0 args = Result.ok vs L1 → L1 = L0) ∧
      (∀ e : LuaError, cipher_decrypt L0 args = Result.raised e L1 → L1 = L0)) :=
  ⟨cipher_encrypt_live L addr k tail hk h, cipher_encrypt_live L addr k tail hk h,
    fun L0 L1 args =>
      ⟨(cipher_encrypt_state L0 L1 args).1, (cipher_encrypt_state L0 L1 args).2,
        (cipher_encrypt_state L0 L1 args).1, (cipher_encrypt_state L0 L1 args).2⟩⟩

theorem encrypt_keeps_state_witness :
    ([0x6b] : List uint8_t) ≠ [] ∧
    ({ udata := [{ metatable := some "LXorCipher",
                   block := { key := some [0x6b],
                              key_length := ([0x6b] : List uint8_t).length } }],
       freed := [] } : lua_State).udata[0]? =
      some { metatable := some "LXorCipher",
             block := { key := some [0x6b], key_length := ([0x6b] : List uint8_t).length } } ∧
    (((∃ vs : List LuaValue,
        cipher_encrypt
          { udata := [{ metatable := some "LXorCipher",
                        block := { key := some [0x6b],
                                   key_length := ([0x6b] : List uint8_t).length } }],
            freed := [] }
          (LuaValue.userdata 0 :: [LuaValue.string [0x61]]) =
        Result.ok vs
          { udata := [{ metatable := some "LXorCipher",
                        block := { key := some [0x6b],
                                   key_length := ([0x6b] : List uint8_t).length } }],
            freed := [] }) ∨
      (∃ e : LuaError,
        cipher_encrypt
          { udata := [{ metatable := some "LXorCipher",
                        block := { key := some [0x6b],
                                   key_length := ([0x6b] : List uint8_t).length } }],
            freed := [] }
          (LuaValue.userdata 0 :: [LuaValue.string [0x61]]) =
        Result.raised e
          { udata := [{ metatable := some "LXorCipher",
                        block := { key := some [0x6b],
                                   key_length := ([0x6b] : List uint8_t).length } }],
            freed := [] })) ∧
    ((∃ vs : List LuaValue,
        cipher_decrypt
          { udata := [{ metatable := some "LXorCipher",
                        block := { key := some [0x6b],
                                   key_length := ([0x6b] : List uint8_t).length } }],
            freed := [] }
          (LuaValue.userdata 0 :: [LuaValue.string [0x61]]) =
        Result.ok vs
          { udata := [{ metatable := some "LXorCipher",
                        block := { key := some [0x6b],
                                   key_length := ([0x6b] : List uint8_t).length } }],
            freed := [] }) ∨
      (∃ e : LuaError,
        cipher_decrypt
          { udata := [{ metatable := some "LXorCipher",
                        block := { key := some [0x6b],
                                   key_length := ([0x6b] : List uint8_t).length } }],
            freed := [] }
          (LuaValue.userdata 0 :: [LuaValue.string [0x61]]) =
        Result.raised e
          { udata := [{ metatable := some "LXorCipher",
                        block := { key := some [0x6b],
                                   key_length := ([0x6b] : List uint8_t).length } }],
            freed := [] })) ∧
    (∀ (L0 L1 : lua_State) (args : List LuaValue),
      (∀ vs : List LuaValue, cipher_encrypt L0 args = Result.ok vs L1 → L1 = L0) ∧
      (∀ e : LuaError, cipher_encrypt L0 args = Result.raised e L1 → L1 = L0) ∧
      (∀ vs : List LuaValue, cipher_decrypt L0 args = Result.ok vs L1 → L1 = L0) ∧
      (∀ e : LuaError, cipher_decrypt L0 args = Result.raised e L1 → L1 = L0))) :=
  ⟨by decide, rfl,
    encrypt_keeps_state
      { udata := [{ metatable := some "LXorCipher",
                    block := { key := some [0x6b],
                               key_length := ([0x6b] : List uint8_t).length } }],
        freed := [] }
      0 [0x6b] [LuaValue.string [0x61]] (by decide) rfl⟩

theorem checkudata_not_cipher (L : lua_State) (recv : LuaValue) (rest : List LuaValue)
    (h : is_cipher_handle L recv = false) :
    luaL_checkudata L (recv :: rest) 1 "LXorCipher" =
      Except.error (LuaError.typeerror 1 "LXorCipher") := by
  cases recv with
  | userdata addr =>
    simp only [is_cipher_handle] at h
    simp only [luaL_checkudata, Nat.sub_self, List.getElem?_cons_zero]
    cases hud : L.udata[addr]? with
    | none => rfl
    | some ud =>
      rw [hud] at h
      simp only [decide_eq_false_iff_not] at h
      simp only [if_neg h]
  | nil => simp [luaL_checkudata]
  | boolean b => simp [luaL_checkudata]
  | number text => simp [luaL_checkudata]
  | string s => simp [luaL_checkudata]
  | table => simp [luaL_checkudata]
  | func => simp [luaL_checkudata]

/-- C14: the claim is that a destroyed cipher is still destroyed after any
of `encrypt`, `decrypt` and the destructor, with any argument. On the block
with `key = NULL` and `key_length = 0` the destructor returns and changes
nothing, and `encrypt` with no message or with the empty message raises its
error and changes nothing; but `encrypt` and `decrypt` with the one-byte
message "a" do not come to an end in any state: they go on into `xor`, which
evaluates `0 % 0`, undefined behaviour. -/
theorem destroyed_encrypt_undefined :
    cipher_destroy
        { udata := [{ metatable := some "LXorCipher",
                      block := { key := none, key_length := 0 } }],
          freed := [[0x00]] }
        [LuaValue.userdata 0] =
      Result.ok []
        { udata := [{ metatable := some "LXorCipher",
                      block := { key := none, key_length := 0 } }],
          freed := [[0x00]] } ∧
    cipher_encrypt
        { udata := [{ metatable := some "LXorCipher",
                      block := { key := none, key_length := 0 } }],
          freed := [[0x00]] }
        [LuaValue.userdata 0] =
      Result.raised (LuaError.typeerror 2 "string")
        { udata := [{ metatable := some "LXorCipher",
                      block := { key := none, key_length := 0 } }],
          freed := [[0x00]] } ∧
    cipher_encrypt
        { udata := [{ metatable := some "LXorCipher",
                      block := { key := none, key_length := 0 } }],
          freed := [[0x00]] }
        [LuaValue.userdata 0, LuaValue.string []] =
      Result.raised (LuaError.error "plaintext cannot be empty")
        { udata := [{ metatable := some "LXorCipher",
                      block := { key := none, key_length := 0 } }],
          freed := [[0x00]] } ∧
    cipher_encrypt
        { udata := [{ metatable := some "LXorCipher",
                      block := { key := none, key_length := 0 } }],
          freed := [[0x00]] }
        [LuaValue.userdata 0, LuaValue.string [0x61]] =
      Result.undefined Undefined.division_by_zero ∧
    cipher_decrypt
        { udata := [{ metatable := some "LXorCipher",
                      block := { key := none, key_length := 0 } }],
          freed := [[0x00]] }
        [LuaValue.userdata 0, LuaValue.string [0x61]] =
      Result.undefined Undefined.division_by_zero :=
  ⟨rfl, rfl, rfl, rfl, rfl⟩

/-- C15: when the receiver is not the handle of a cipher, `cipher_encrypt`
and `cipher_decrypt` raise the argument error of `luaL_checkudata` for
argument 1 and leave the state as it was, whatever follows the receiver in
the argument list (a message, the empty message, nothing) and whatever the
blocks in memory hold; the same error is raised when there is no receiver
at all. -/
theorem receiver_type_checked (L : lua_State) (recv : LuaValue) (rest : List LuaValue)
    (h : is_cipher_handle L recv = false) :
    cipher_encrypt L (recv :: rest) =
      Result.raised (LuaError.typeerror 1 "LXorCipher") L ∧
    cipher_decrypt L (recv :: rest) =
      Result.raised (LuaError.typeerror 1 "LXorCipher") L ∧
    cipher_encrypt L [] = Result.raised (LuaError.typeerror 1 "LXorCipher") L ∧
    cipher_decrypt L [] = Result.raised (LuaError.typeerror 1 "LXorCipher") L := by
  have henc : cipher_encrypt L (recv :: rest) =
      Result.raised (LuaError.typeerror 1 "LXorCipher") L := by
    unfold cipher_encrypt
    rw [checkudata_not_cipher L recv rest h]
  exact ⟨henc, henc, rfl, rfl⟩

theorem receiver_type_checked_witness :
    is_cipher_handle { udata := [], freed := [] } (LuaValue.string [0x6b]) = false ∧
    (cipher_encrypt { udata := [], freed := [] }
        (LuaValue.string [0x6b] :: [LuaValue.string [0x61]]) =
      Result.raised (LuaError.typeerror 1 "LXorCipher") { udata := [], freed := [] } ∧
    cipher_decrypt { udata := [], freed := [] }
        (LuaValue.string [0x6b] :: [LuaValue.string [0x61]]) =
      Result.raised (LuaError.typeerror 1 "LXorCipher") { udata := [], freed := [] } ∧
    cipher_encrypt { udata := [], freed := [] } [] =
      Result.raised (LuaError.typeerror 1 "LXorCipher") { udata := [], freed := [] } ∧
    cipher_decrypt { udata := [], freed := [] } [] =
      Result.raised (LuaError.typeerror 1 "LXorCipher") { udata := [], freed := [] }) :=
  ⟨rfl, receiver_type_checked { udata := [], freed := [] } (LuaValue.string [0x6b])
    [LuaValue.string [0x61]] rfl⟩

theorem uint8_xor_key_cancel (a b kb : uint8_t) : (a ^^^ kb) ^^^ (b ^^^ kb) = a ^^^ b := by
  apply Fin.ext
  rw [uint8_xor_val, uint8_xor_val, uint8_xor_val, uint8_xor_val, Nat.xor_assoc,
    Nat.xor_comm b.val kb.val, ← Nat.xor_assoc kb.val, Nat.xor_self, Nat.zero_xor]

theorem xor_loop_append (k : List uint8_t) (hk : 0 < k.length) :
    ∀ (a b : List uint8_t) (i : Nat), ∃ oa ob : List uint8_t,
      xor_loop (some k) k.length i a = Except.ok oa ∧
      xor_loop (some k) k.length (i + a.length) b = Except.ok ob ∧
      xor_loop (some k) k.length i (a ++ b) = Except.ok (oa ++ ob) ∧
      oa.length = a.length := by
  intro a
  induction a with
  | nil =>
    intro b i
    obtain ⟨ob, hb, -, -⟩ := xor_loop_spec k hk b i
    exact ⟨[], ob, xor_loop_nil _ _ _, hb, hb, rfl⟩
  | cons x a ih =>
    intro b i
    obtain ⟨oa, ob, h1, h2, h3, h4⟩ := ih b (i + 1)
    have hidx : i + (x :: a).length = i + 1 + a.length := by
      simp only [List.length_cons]
      omega
    refine ⟨(x ^^^ k.get ⟨i % k.length, Nat.mod_lt _ hk⟩) :: oa, ob, ?_, ?_, ?_, ?_⟩
    · rw [xor_loop_cons k i x a (Nat.mod_lt _ hk), h1]
    · rw [hidx]
      exact h2
    · rw [List.cons_append, xor_loop_cons k i x (a ++ b) (Nat.mod_lt _ hk), h3]
      rfl
    · simp [h4]

theorem xor_loop_key_cancel (k : List uint8_t) (hk : 0 < k.length) :
    ∀ (m1 m2 c1 c2 : List uint8_t) (i : Nat),
      xor_loop (some k) k.length i m1 = Except.ok c1 →
      xor_loop (some k) k.length i m2 = Except.ok c2 →
      List.zipWith (fun x y => x ^^^ y) c1 c2 = List.zipWith (fun x y => x ^^^ y) m1 m2 := by
  intro m1
  induction m1 with
  | nil =>
    intro m2 c1 c2 i h1 _
    rw [xor_loop_nil] at h1
    cases h1
    simp
  | cons x m1 ih =>
    intro m2 c1 c2 i h1 h2
    cases m2 with
    | nil =>
      rw [xor_loop_nil] at h2
      cases h2
      simp
    | cons y m2 =>
      obtain ⟨d1, hd1, -, -⟩ := xor_loop_spec k hk m1 (i + 1)
      obtain ⟨d2, hd2, -, -⟩ := xor_loop_spec k hk m2 (i + 1)
      rw [xor_loop_cons k i x m1 (Nat.mod_lt _ hk), hd1] at h1
      rw [xor_loop_cons k i y m2 (Nat.mod_lt _ hk), hd2] at h2
      cases h1
      cases h2
      simp only [List.zipWith_cons_cons, uint8_xor_key_cancel, ih m2 d1 d2 (i + 1) hd1 hd2]

/-- C16: for a non-empty key `k` and byte sequences `a` and `b`, `xor`
returns an output for `a` and for `a ++ b`, and the first `len(a)` bytes of
the output for `a ++ b` are the output for `a`. -/
theorem xor_prefix_stable (k a b : List uint8_t) (hk : k ≠ []) :
    ∃ ca cab : List uint8_t,
      xor (some k) k.length a = Except.ok (ca, a.length) ∧
      xor (some k) k.length (a ++ b) = Except.ok (cab, (a ++ b).length) ∧
      cab.take a.length = ca := by
  obtain ⟨oa, ob, h1, -, h3, h4⟩ := xor_loop_append k (List.length_pos.mpr hk) a b 0
  refine ⟨oa, oa ++ ob, ?_, ?_, ?_⟩
  · simp [xor, h1]
  · simp [xor, h3]
  · rw [← h4, List.take_left]

theorem xor_prefix_stable_witness :
    ([0x41, 0x42] : List uint8_t) ≠ [] ∧
    ∃ ca cab : List uint8_t,
      xor (some [0x41, 0x42]) ([0x41, 0x42] : List uint8_t).length [0x10, 0x20] =
        Except.ok (ca, ([0x10, 0x20] : List uint8_t).length) ∧
      xor (some [0x41, 0x42]) ([0x41, 0x42] : List uint8_t).length ([0x10, 0x20] ++ [0x30]) =
        Except.ok (cab, (([0x10, 0x20] : List uint8_t) ++ [0x30]).length) ∧
      cab.take ([0x10, 0x20] : List uint8_t).length = ca :=
  ⟨by decide, xor_prefix_stable [0x41, 0x42] [0x10, 0x20] [0x30] (by decide)⟩

/-- C17: for a non-empty key `k` and two messages `m1` and `m2` of equal
length, `xor` returns an output for each, and the bytewise exclusive or of
the two outputs is the bytewise exclusive or of `m1` and `m2`, a sequence of
that same length in which `k` does not occur. -/
theorem xor_key_cancellation (k m1 m2 : List uint8_t) (hk : k ≠ [])
    (hlen : m1.length = m2.length) :
    ∃ c1 c2 : List uint8_t,
      xor (some k) k.length m1 = Except.ok (c1, m1.length) ∧
      xor (some k) k.length m2 = Except.ok (c2, m2.length) ∧
      List.zipWith (fun x y => x ^^^ y) c1 c2 = List.zipWith (fun x y => x ^^^ y) m1 m2 ∧
      (List.zipWith (fun x y => x ^^^ y) c1 c2).length = m1.length := by
  obtain ⟨c1, h1, l1, -⟩ := xor_loop_spec k (List.length_pos.mpr hk) m1 0
  obtain ⟨c2, h2, l2, -⟩ := xor_loop_spec k (List.length_pos.mpr hk) m2 0
  refine ⟨c1, c2, ?_, ?_, ?_, ?_⟩
  · simp [xor, h1]
  · simp [xor, h2]
  · exact xor_loop_key_cancel k (List.length_pos.mpr hk) m1 m2 c1 c2 0 h1 h2
  · simp [l1, l2, hlen]

theorem xor_key_cancellation_witness :
    ([0x41, 0x42] : List uint8_t) ≠ [] ∧
    ([0x10, 0x20, 0x30] : List uint8_t).length = ([0x01, 0x02, 0x03] : List uint8_t).length ∧
    ∃ c1 c2 : List uint8_t,
      xor (some [0x41, 0x42]) ([0x41, 0x42] : List uint8_t).length [0x10, 0x20, 0x30] =
        Except.ok (c1, ([0x10, 0x20, 0x30] : List uint8_t).length) ∧
      xor (some [0x41, 0x42]) ([0x41, 0x42] : List uint8_t).length [0x01, 0x02, 0x03] =
        Except.ok (c2, ([0x01, 0x02, 0x03] : List uint8_t).length) ∧
      List.zipWith (fun x y => x ^^^ y) c1 c2 =
        List.zipWith (fun x y => x ^^^ y) ([0x10, 0x20, 0x30] : List uint8_t)
          [0x01, 0x02, 0x03] ∧
      (List.zipWith (fun x y => x ^^^ y) c1 c2).length =
        ([0x10, 0x20, 0x30] : List uint8_t).length :=
  ⟨by decide, rfl,
    xor_key_cancellation [0x41, 0x42] [0x10, 0x20, 0x30] [0x01, 0x02, 0x03] (by decide) rfl⟩

end LXor
